import Mathlib

/-!
Shallow embedding of the kindle-highlights-reminder core: the highlight store
(src/lib/database.js), the deterministic highlight-id derivation
(src/content-scripts/parser.js) and the selection engine (HighlightSelector).

Modelling conventions:
- JS strings are lists of characters (`Str`); `String.prototype.localeCompare`
  is modelled as code-point lexicographic comparison, and `toLowerCase` as
  ASCII lowering (the repository only manipulates ASCII identifiers here).
- JS timestamps (`Date.now()`) are `Int` milliseconds; the IEEE doubles used
  by the scorer are modelled as exact rationals.
- A JS object field that may be absent is an `Option`; code that reads a
  field with `x || d` goes through `Option.getD`.
- `Math.random()` draws are supplied as explicit streams (`Nat → Nat` for
  index picks, consumed as `r k % len`; `Nat → ℚ` for jitter draws).
- IndexedDB `put` on the `highlights` store (keyPath `id`) replaces the record
  with the same id; `delete` succeeds whether or not the key exists.
- JS `Array.prototype.sort` (stable since ES2019) is modelled by a stable
  insertion sort keyed on the source comparator.
- Fallible operations return `Option`/`Except`; loops whose termination is in
  question take explicit fuel and return `none` when it runs out.
-/

set_option maxRecDepth 8000

abbrev Str := List Char

def lowerChar (c : Char) : Char :=
  if 'A' ≤ c ∧ c ≤ 'Z' then Char.ofNat (c.toNat + 32) else c

def strLower (s : Str) : Str := s.map lowerChar

def strLtB : Str → Str → Bool
  | [], [] => false
  | [], _ :: _ => true
  | _ :: _, [] => false
  | a :: as, b :: bs => if a < b then true else if b < a then false else strLtB as bs

/-- Model of `String.prototype.localeCompare`: negative / zero / positive. -/
def strCompare (a b : Str) : Int :=
  if strLtB a b then -1 else if strLtB b a then 1 else 0

/-- Model of `String.prototype.includes` (substring test). -/
def hasSubstr (s pat : Str) : Bool :=
  (List.range (s.length + 1)).any (fun i => pat.isPrefixOf (s.drop i))

/-- The whitespace class of the regexes and of `String.prototype.trim`. -/
def jsSpace (c : Char) : Bool :=
  c = ' ' ∨ c.toNat = 9 ∨ c.toNat = 10 ∨ c.toNat = 13 ∨ c.toNat = 12 ∨
    c.toNat = 11 ∨ c.toNat = 160

def digitsToNat (ds : Str) : Nat :=
  ds.foldl (fun n c => n * 10 + (c.toNat - 48)) 0

/-- Decimal rendering of a Nat (for JS template interpolation of numbers). -/
def natToDigitsAux : Nat → Nat → Str → Str
  | 0, _, acc => acc
  | fuel + 1, n, acc =>
    if n = 0 then acc else natToDigitsAux fuel (n / 10) (Char.ofNat (48 + n % 10) :: acc)

def natToDigits (n : Nat) : Str :=
  if n = 0 then ['0'] else natToDigitsAux n n []

/-- One stored record of the `highlights` object store.  `timesShown` is read
everywhere as `highlight.timesShown || 0`, so an absent field is identified
with 0; `note` is `none` when the stored value is not a string (e.g. it was
set to `undefined` by a bulk update); `lastShown` / `lastSentInEmail` are
`none` when absent / null. -/
structure Highlight where
  id : Str
  bookAsin : Str
  text : Str
  location : Str
  page : Str
  dateHighlighted : Int
  dateAdded : Int
  color : Str
  note : Option Str
  tags : List Str
  lastSentInEmail : Option Int
  timesShown : Nat
  lastShown : Option Int
deriving DecidableEq

instance : Inhabited Highlight :=
  ⟨⟨[], [], [], [], [], 0, 0, [], none, [], none, 0, none⟩⟩

/-- The argument object of `Database.addHighlight`: each key may be absent.
`note` distinguishes absent (`none`) from present-with-undefined
(`some none`), because the spread `...highlight` re-applies a present
`undefined` over the `highlight.note || ''` default. -/
structure HLInput where
  id : Option Str
  bookAsin : Str
  text : Str
  location : Option Str
  page : Option Str
  dateHighlighted : Option Int
  dateAdded : Option Int
  color : Option Str
  note : Option (Option Str)
  tags : Option (List Str)
  lastSentInEmail : Option (Option Int)
  timesShown : Option Nat
  lastShown : Option Int
deriving DecidableEq

/-- Model of `Database.addHighlight`'s record construction: defaults first, then the
spread `...highlight` lets every present input field win (including
`dateAdded`, which therefore takes the ingestion-time value of the input, or
`Date.now()` of this call when absent). -/
def mkHighlightData (now : Int) (uuid : Str) (h : HLInput) : Highlight :=
  { id := h.id.getD uuid
    bookAsin := h.bookAsin
    text := h.text
    location := h.location.getD []
    page := h.page.getD []
    dateHighlighted := h.dateHighlighted.getD now
    dateAdded := h.dateAdded.getD now
    color := h.color.getD ("yellow".toList)
    note := match h.note with
      | none => some []
      | some v => v
    tags := h.tags.getD []
    lastSentInEmail := h.lastSentInEmail.getD none
    timesShown := h.timesShown.getD 0
    lastShown := h.lastShown }

/-- IndexedDB `store.put` on keyPath `id`: replace the record with the same id
or append a new one. -/
def putHighlight (store : List Highlight) (h : Highlight) : List Highlight :=
  if store.any (fun x => x.id = h.id) then
    store.map (fun x => if x.id = h.id then h else x)
  else store ++ [h]

/-- Model of `Database.addHighlight` acting on the store. -/
def addHighlight (now : Int) (uuid : Str) (store : List Highlight) (h : HLInput) :
    List Highlight :=
  putHighlight store (mkHighlightData now uuid h)

/-- Model of `Database.updateHighlight`: `none` models the thrown not-found error. -/
def updateHighlight (store : List Highlight) (id : Str) (upd : Highlight → Highlight) :
    Option (List Highlight) :=
  if store.any (fun h => h.id = id) then
    some (store.map (fun h => if h.id = id then upd h else h))
  else none

/-- Model of `Database.markHighlightAsSent`: sets `lastSentInEmail` only. -/
def markHighlightAsSent (now : Int) (store : List Highlight) (id : Str) :
    Option (List Highlight) :=
  updateHighlight store id (fun h => { h with lastSentInEmail := some now })

/-- Model of `HighlightSelector.markHighlightsAsShown`: per id, if the highlight exists,
set `lastShown = now` and `timesShown = (timesShown || 0) + 1`; missing ids
are skipped. -/
def markHighlightsAsShown (now : Int) (store : List Highlight) (ids : List Str) :
    List Highlight :=
  ids.foldl
    (fun st id =>
      match st.find? (fun h => h.id = id) with
      | some _ =>
        st.map (fun h =>
          if h.id = id then { h with lastShown := some now, timesShown := h.timesShown + 1 }
          else h)
      | none => st)
    store

-- Parser-side id derivation (src/content-scripts/parser.js).

def charCode (c : Char) : Int := (c.toNat : Int)

/-- JS `ToInt32` coercion (the effect of `hash & hash` and of `<<`). -/
def toInt32 (n : Int) : Int := (n + 2 ^ 31) % 2 ^ 32 - 2 ^ 31

/-- Model of `KindleParser.simpleHash`: `hash = ((hash << 5) - hash) + charCode;
hash = hash & hash` folded over the string, then `Math.abs`. -/
def simpleHash (s : Str) : Nat :=
  (s.foldl (fun h c => toInt32 (toInt32 (h * 32) - h + charCode c)) 0).natAbs

/-- The `replace(/[^a-z0-9]/g, '')` step of `generateHighlightId`. -/
def keepAlnum (s : Str) : Str :=
  s.filter (fun c => ('a' ≤ c ∧ c ≤ 'z') ∨ ('0' ≤ c ∧ c ≤ '9'))

/-- Model of `KindleParser.generateHighlightId`: deterministic id from text and ASIN. -/
def generateHighlightId (text bookAsin : Str) : Str :=
  ("highlight_".toList) ++ bookAsin ++ ('_' :: natToDigits (simpleHash (keepAlnum (strLower text) ++ bookAsin)))

-- HighlightSelector (the selection engine).

/-- The fixed spaced-repetition interval ladder, in days. -/
def spacedRepetitionIntervals : List ℚ := [1, 3, 7, 14, 30, 90, 180, 365]

/-- Model of `highlight.lastShown || 0`. -/
def lastShownNum (h : Highlight) : Int := h.lastShown.getD 0

/-- Truthiness of `highlight.note && highlight.note.trim()`. -/
def noteNonBlank : Option Str → Bool
  | none => false
  | some s => s.any (fun c => !(jsSpace c))

/-- Model of `HighlightSelector.calculateSpacedRepetitionScore` before the random
jitter is added (the base overdue score, with the note/tags/frequency
multipliers). -/
def calculateSpacedRepetitionBase (now : Int) (h : Highlight) : ℚ :=
  let timesShown := h.timesShown
  let lastShown := lastShownNum h
  let daysSinceLastShown : ℚ :=
    if lastShown > 0 then ((now : ℚ) - (lastShown : ℚ)) / (24 * 60 * 60 * 1000) else 999
  let intervalIndex := min timesShown (spacedRepetitionIntervals.length - 1)
  let targetInterval := spacedRepetitionIntervals.getD intervalIndex 1
  let s1 := daysSinceLastShown / targetInterval
  let s2 := if noteNonBlank h.note then s1 * (3 / 2) else s1
  let s3 := if h.tags ≠ [] then s2 * (6 / 5) else s2
  if timesShown > 5 then s3 * (4 / 5) else s3

/-- The full score: base plus `Math.random() * 0.1`, where `draw` is the
random draw in `[0, 1)`. -/
def calculateSpacedRepetitionScore (now : Int) (draw : ℚ) (h : Highlight) : ℚ :=
  calculateSpacedRepetitionBase now h + draw * (1 / 10)

/-- Stable insertion step: `keep b a` decides whether the earlier-placed `b`
may stay in front of `a` (the comparator is ≤ 0 on `(b, a)`). -/
def insertKeep (keep : α → α → Bool) (a : α) : List α → List α
  | [] => [a]
  | b :: bs => if keep b a then b :: insertKeep keep a bs else a :: b :: bs

/-- Stable sort modelling `Array.prototype.sort` with a consistent
comparator: `keep b a` is `comparator(b, a) <= 0`. -/
def stableSortBy (keep : α → α → Bool) (l : List α) : List α :=
  l.foldl (fun acc x => insertKeep keep x acc) []

/-- The random-sampling loop of `selectBySpacedRepetition`.  The JS loop
condition `i < Math.min(count, candidatesCopy.length)` is re-evaluated after
every `splice`, so it reads the shrinking length.  Fuel is structural only;
any fuel ≥ the list length is enough. -/
def sampleLoop (rand : Nat → Nat) (count : Nat) :
    Nat → Nat → Nat → List (Highlight × ℚ) → List (Highlight × ℚ)
  | 0, _, _, _ => []
  | fuel + 1, i, k, copy =>
    if i < min count copy.length then
      let idx := rand k % copy.length
      copy.getD idx default :: sampleLoop rand count fuel (i + 1) (k + 1) (copy.eraseIdx idx)
    else []

/-- Model of `HighlightSelector.selectBySpacedRepetition`: score (consuming one jitter
draw per highlight, in order), sort descending by score (stable), keep the
top `min(count*2, n)`, then draw randomly without replacement.  Returned
elements carry their `spacedRepetitionScore` decoration. -/
def selectBySpacedRepetition (now : Int) (jit : Nat → ℚ) (rand : Nat → Nat)
    (highlights : List Highlight) (count : Nat) : List (Highlight × ℚ) :=
  let scored := highlights.enum.map
    (fun p => (p.2, calculateSpacedRepetitionScore now (jit p.1) p.2))
  let sorted := stableSortBy (fun b a => decide (a.2 ≤ b.2)) scored
  let topCandidates := sorted.take (min (count * 2) sorted.length)
  sampleLoop rand count (topCandidates.length + 1) 0 0 topCandidates

/-- Model of `HighlightSelector.calculateWeightedScore`; `jitDraw` is the random draw
consumed inside the nested spaced-repetition score, `rndDraw` the one of the
randomness component. -/
def calculateWeightedScore (now : Int) (jitDraw rndDraw : ℚ) (h : Highlight) : ℚ :=
  let spacedScore := calculateSpacedRepetitionScore now jitDraw h
  let hasNotesScore : ℚ := if noteNonBlank h.note then 1 else 0
  let daysSinceHighlighted : ℚ := ((now : ℚ) - (h.dateHighlighted : ℚ)) / (24 * 60 * 60 * 1000)
  let recencyScore := max 0 (1 - daysSinceHighlighted / 365)
  let frequencyScore := max 0 (1 - (h.timesShown : ℚ) / 10)
  let tagsScore : ℚ := if h.tags ≠ [] then 1 else 0
  spacedScore * (4 / 10) + hasNotesScore * (2 / 10) + recencyScore * (15 / 100) +
    frequencyScore * (1 / 10) + tagsScore * (1 / 10) + rndDraw * (5 / 100)

/-- Model of `HighlightSelector.selectByWeightedScore`. -/
def selectByWeightedScore (now : Int) (jit rnd : Nat → ℚ)
    (highlights : List Highlight) (count : Nat) : List (Highlight × ℚ) :=
  let scored := highlights.enum.map
    (fun p => (p.2, calculateWeightedScore now (jit p.1) (rnd p.1) p.2))
  (stableSortBy (fun b a => decide (a.2 ≤ b.2)) scored).take count

/-- Draw-everything permutation used to model the engine-defined result of
`sort(() => Math.random() - 0.5)` in `selectRandomly`. -/
def drawAll (rand : Nat → Nat) : Nat → Nat → List Highlight → List Highlight
  | 0, _, _ => []
  | fuel + 1, k, l =>
    if l.length = 0 then []
    else
      let idx := rand k % l.length
      l.getD idx default :: drawAll rand fuel (k + 1) (l.eraseIdx idx)

/-- Model of `HighlightSelector.selectRandomly` (shuffle, then `slice(0, count)`). -/
def selectRandomly (rand : Nat → Nat) (highlights : List Highlight) (count : Nat) :
    List Highlight :=
  (drawAll rand highlights.length 0 highlights).take count

/-- Model of `HighlightSelector.selectOldestFirst`. -/
def selectOldestFirst (highlights : List Highlight) (count : Nat) : List Highlight :=
  (stableSortBy (fun b a => decide (b.dateHighlighted ≤ a.dateHighlighted)) highlights).take count

/-- Model of `HighlightSelector.selectNewestFirst`. -/
def selectNewestFirst (highlights : List Highlight) (count : Nat) : List Highlight :=
  (stableSortBy (fun b a => decide (a.dateHighlighted ≤ b.dateHighlighted)) highlights).take count

/-- Grouping of `selectFromMostHighlightedBooks`: a JS object keyed by the
(non-numeric) ASIN strings keeps insertion order. -/
def groupByBook (l : List Highlight) : List (Str × List Highlight) :=
  l.foldl
    (fun acc h =>
      if acc.any (fun p => p.1 = h.bookAsin) then
        acc.map (fun p => if p.1 = h.bookAsin then (p.1, p.2 ++ [h]) else p)
      else acc ++ [(h.bookAsin, [h])])
    []

/-- Truthiness of `!h.lastShown`. -/
def neverShown (h : Highlight) : Bool :=
  match h.lastShown with
  | none => true
  | some t => t = 0

/-- The `while` loop of `selectFromMostHighlightedBooks`.  One random draw is
consumed per iteration.  After the last book, `bookIndex` is reset to 0
whenever `selected.length < count`; the loop exits only when
`selected.length` reaches `count`, so the fuel is genuine: `none` means the
loop was still running when the fuel ran out. -/
def mhLoop (rand : Nat → Nat) (books : List (Str × List Highlight)) (count : Nat) :
    Nat → List Highlight → Nat → Nat → Option (List Highlight)
  | 0, _, _, _ => none
  | fuel + 1, selected, bookIndex, k =>
    if selected.length < count ∧ bookIndex < books.length then
      let bookHighlights := (books.getD bookIndex ([], [])).2
      let unshown := bookHighlights.filter neverShown
      let candidate :=
        if unshown.length > 0 then unshown.getD (rand k % unshown.length) default
        else bookHighlights.getD (rand k % bookHighlights.length) default
      let selected' :=
        if bookHighlights.length > 0 ∧ (selected.find? (fun s => s.id = candidate.id)).isNone
        then selected ++ [candidate]
        else selected
      let next := bookIndex + 1
      let next' := if books.length ≤ next ∧ selected'.length < count then 0 else next
      mhLoop rand books count fuel selected' next' (k + 1)
    else some selected

/-- Model of `HighlightSelector.selectFromMostHighlightedBooks` (the
`'most-highlighted'` mode): group by book, sort groups by size descending,
then round-robin with wrap-around. -/
def selectFromMostHighlightedBooks (rand : Nat → Nat) (highlights : List Highlight)
    (count : Nat) (fuel : Nat) : Option (List Highlight) :=
  let sortedBooks :=
    stableSortBy (fun b a => decide (a.2.length ≤ b.2.length)) (groupByBook highlights)
  mhLoop rand sortedBooks count fuel [] 0 0

/-- The argument object `userSettings` of `selectHighlights`. -/
structure UserSettings where
  preferredBooks : List Str
  preferredColors : List Str
  minHighlightAge : Int
  requiredTags : List Str
  highlightSelectionMode : Option Str
deriving DecidableEq

/-- Model of `HighlightSelector.filterHighlights`. -/
def filterHighlights (now : Int) (highlights : List Highlight) (s : UserSettings) :
    List Highlight :=
  let f1 :=
    if s.preferredBooks ≠ [] then highlights.filter (fun h => s.preferredBooks.contains h.bookAsin)
    else highlights
  let f2 :=
    if s.preferredColors ≠ [] then f1.filter (fun h => s.preferredColors.contains h.color)
    else f1
  let f3 :=
    if s.minHighlightAge > 0 then
      f2.filter (fun h => h.dateHighlighted ≤ now - s.minHighlightAge * (24 * 60 * 60 * 1000))
    else f2
  if s.requiredTags ≠ [] then
    f3.filter (fun h => h.tags ≠ [] ∧ s.requiredTags.any (fun t => h.tags.contains t))
  else f3

/-- Model of `HighlightSelector.selectByAlgorithm`.  The scored modes drop their
transient score decoration here.  `none` propagates non-termination of the
`'most-highlighted'` loop. -/
def selectByAlgorithm (now : Int) (jit rnd : Nat → ℚ) (rand : Nat → Nat) (fuel : Nat)
    (highlights : List Highlight) (count : Nat) (algorithm : Str) :
    Option (List Highlight) :=
  if algorithm = ("spaced-repetition".toList) then
    some ((selectBySpacedRepetition now jit rand highlights count).map Prod.fst)
  else if algorithm = ("random".toList) then
    some (selectRandomly rand highlights count)
  else if algorithm = ("oldest-first".toList) then
    some (selectOldestFirst highlights count)
  else if algorithm = ("newest-first".toList) then
    some (selectNewestFirst highlights count)
  else if algorithm = ("most-highlighted".toList) then
    selectFromMostHighlightedBooks rand highlights count fuel
  else if algorithm = ("weighted-smart".toList) then
    some ((selectByWeightedScore now jit rnd highlights count).map Prod.fst)
  else
    some ((selectBySpacedRepetition now jit rand highlights count).map Prod.fst)

/-- The success result object of `selectHighlights`. -/
structure SelectOutcome where
  status : Str
  highlights : List Highlight
  message : Option Str
  totalAvailable : Option Nat
  filteredCount : Option Nat
  algorithm : Option Str
deriving DecidableEq

/-- Model of `HighlightSelector.selectHighlights`: empty store and empty filter result
short-circuit to a success with an empty list; otherwise the chosen algorithm
runs (`userSettings.highlightSelectionMode || 'spaced-repetition'`). -/
def selectHighlights (now : Int) (jit rnd : Nat → ℚ) (rand : Nat → Nat) (fuel : Nat)
    (store : List Highlight) (count : Nat) (s : UserSettings) : Option SelectOutcome :=
  if store.length = 0 then
    some ⟨"success".toList, [], some ("No highlights available".toList), none, none, none⟩
  else
    let filtered := filterHighlights now store s
    if filtered.length = 0 then
      some ⟨"success".toList, [],
        some ("No highlights match your current preferences".toList), none, none, none⟩
    else
      let mode := s.highlightSelectionMode.getD ("spaced-repetition".toList)
      match selectByAlgorithm now jit rnd rand fuel filtered count mode with
      | none => none
      | some sel =>
        some ⟨"success".toList, sel, none, some store.length, some filtered.length, some mode⟩

-- Query and maintenance layer (src/lib/database.js).

/-- The `filters` object of `Database.searchHighlights`.  A `none` field is
absent (or falsy, which the code treats the same way for these filters). -/
structure SearchFilters where
  bookAsin : Option Str
  color : Option Str
  dateFrom : Option Int
  dateTo : Option Int
  hasNote : Option Bool
deriving DecidableEq

/-- The text-match predicate of `searchHighlights`, evaluated left to right
exactly as the JS `||` chain: when the query is not found in `text`, the code
evaluates `highlight.note.toLowerCase()`, which throws if `note` is not a
string (`none` here). -/
def matchesText (term : Str) (h : Highlight) : Except Unit Bool :=
  if hasSubstr (strLower h.text) term then .ok true
  else
    match h.note with
    | none => .error ()
    | some nt =>
      if hasSubstr (strLower nt) term then .ok true
      else .ok (h.tags.any (fun t => hasSubstr (strLower t) term))

/-- Model of `Array.prototype.filter` over the throwing predicate, evaluated front to
back: the first throw aborts the whole call. -/
def filterTextE (term : Str) : List Highlight → Except Unit (List Highlight)
  | [] => .ok []
  | h :: hs =>
    match matchesText term h with
    | .error e => .error e
    | .ok b =>
      match filterTextE term hs with
      | .error e => .error e
      | .ok rest => if b then .ok (h :: rest) else .ok rest

/-- Truthiness of `h.note && h.note.trim()` (`hasNote` filter). -/
def hasNoteVal (h : Highlight) : Bool := noteNonBlank h.note

/-- Model of `Database.searchHighlights`: text search (throwing on a malformed note),
then the structured filters, then sort by `dateHighlighted` descending.  The
promise rejection is the `.error` case. -/
def searchHighlights (store : List Highlight) (query : Str) (filters : SearchFilters) :
    Except Unit (List Highlight) :=
  match (if query ≠ [] then filterTextE (strLower query) store else .ok store) with
  | .error e => .error e
  | .ok filtered =>
  let f1 := match filters.bookAsin with
    | some a => if a ≠ [] then filtered.filter (fun h => h.bookAsin = a) else filtered
    | none => filtered
  let f2 := match filters.color with
    | some c => if c ≠ [] then f1.filter (fun h => h.color = c) else f1
    | none => f1
  let f3 := match filters.dateFrom with
    | some d => if d ≠ 0 then f2.filter (fun h => d ≤ h.dateHighlighted) else f2
    | none => f2
  let f4 := match filters.dateTo with
    | some d => if d ≠ 0 then f3.filter (fun h => h.dateHighlighted ≤ d) else f3
    | none => f3
  let f5 := match filters.hasNote with
    | some b => f4.filter (fun h => if b then hasNoteVal h else !(hasNoteVal h))
    | none => f4
  .ok (stableSortBy (fun b a => decide (a.dateHighlighted ≤ b.dateHighlighted)) f5)

-- Location comparison (`Database.compareLocations` / `extractPageNumber`).

/-- Model of `\s*(\d+)`: skip whitespace, then require at least one digit; returns the
maximal digit run (the capture group). -/
def wsDigits (cs : Str) : Option Str :=
  let rest := cs.dropWhile jsSpace
  let ds := rest.takeWhile Char.isDigit
  if ds = [] then none else some ds

/-- One attempt of `/(?:page|p\.?)\s*(\d+)/i` anchored at the current
position: try the `page` alternative first, then `p` with a greedy optional
dot (backtracking to the dot-less branch). -/
def matchPageAt (cs : Str) : Option Str :=
  (if (cs.take 4).map lowerChar = ("page".toList) then wsDigits (cs.drop 4) else none).orElse
    (fun _ =>
      match cs with
      | [] => none
      | c :: rest =>
        if lowerChar c = 'p' then
          match rest with
          | '.' :: rest2 => (wsDigits rest2).orElse (fun _ => wsDigits rest)
          | _ => wsDigits rest
        else none)

/-- Leftmost match of the page regex. -/
def findPage : Str → Option Str
  | [] => none
  | c :: cs => (matchPageAt (c :: cs)).orElse (fun _ => findPage cs)

/-- Model of `Database.extractPageNumber`: the captured digit string, or null. -/
def extractPageNumber (location : Str) : Option Str := findPage location

/-- Model of `Database.compareLocations`: numeric when both locations yield a page
number, otherwise `localeCompare`. -/
def compareLocations (locA locB : Str) : Int :=
  match extractPageNumber locA, extractPageNumber locB with
  | some pa, some pb => (digitsToNat pa : Int) - (digitsToNat pb : Int)
  | _, _ => strCompare locA locB

/-- The `'location'` sort comparator of `getHighlightsByBook`: it reads only
the two location strings. -/
def locationComparator (a b : Highlight) : Int :=
  compareLocations a.location b.location

/-- The `'location'` branch of `getHighlightsByBook`'s sort. -/
def sortHighlightsByLocation (l : List Highlight) : List Highlight :=
  stableSortBy (fun b a => decide (locationComparator b a ≤ 0)) l

/-- Leading digit run of a string, if any (spec wording for C9). -/
def leadingInt (s : Str) : Option Nat :=
  let ds := s.takeWhile Char.isDigit
  if ds = [] then none else some (digitsToNat ds)

/-- Modelled from the spec (refinement comparison for C9, not from the
source): compares by the leading integer of `locationLabel` when both labels
have one, falls back to lexicographic comparison when absent, and breaks ties
by `dateCreated` (`dateHighlighted`) descending. -/
def specPositionCompare (a b : Highlight) : Int :=
  let primary :=
    match leadingInt a.location, leadingInt b.location with
    | some x, some y => (x : Int) - (y : Int)
    | _, _ => strCompare a.location b.location
  if primary ≠ 0 then primary else b.dateHighlighted - a.dateHighlighted

-- Bulk maintenance operations.

/-- Model of `Database.bulkDeleteHighlights`: per id an IndexedDB `delete` request,
which succeeds whether or not the key exists; `completed` counts every
processed id and is the resolved value. -/
def bulkDeleteHighlights (store : List Highlight) (ids : List Str) :
    List Highlight × Nat :=
  ids.foldl
    (fun acc id => (acc.1.filter (fun h => !(h.id = id : Bool)), acc.2 + 1))
    (store, 0)

/-- An update patch for `bulkUpdateHighlights`.  A `some` field is a key
present in `updates` (for `note`, possibly present with value `undefined`,
i.e. `some none`); other keys of the source behave analogously. -/
structure HLPatch where
  note : Option (Option Str)
  tags : Option (List Str)
  color : Option Str
deriving DecidableEq

/-- The spread `{ ...highlight, ...updates }`. -/
def applyPatch (p : HLPatch) (h : Highlight) : Highlight :=
  { h with
    note := match p.note with
      | some v => v
      | none => h.note
    tags := p.tags.getD h.tags
    color := p.color.getD h.color }

/-- Model of `Database.bulkUpdateHighlights`: all `get` requests are queued before any
`put` (the loop issues them synchronously), so every get reads the original
store; missing ids are skipped silently; the resolved value is the list of
updated records. -/
def bulkUpdateHighlights (store : List Highlight) (ids : List Str) (p : HLPatch) :
    List Highlight × List Highlight :=
  let results := ids.filterMap (fun id => (store.find? (fun h => h.id = id)).map (applyPatch p))
  (results.foldl putHighlight store, results)

-- Export / import (src/lib/database.js).

/-- One stored record of the `books` object store. -/
structure Book where
  asin : Str
  title : Str
  author : Str
  coverUrl : Str
  lastUpdated : Int
deriving DecidableEq

/-- The argument object of `Database.addBook`. -/
structure BookInput where
  asin : Str
  title : Str
  author : Str
  coverUrl : Option Str
  lastUpdated : Option Int
deriving DecidableEq

/-- Model of `Database.addBook`'s record construction (defaults, then the spread). -/
def mkBookData (now : Int) (b : BookInput) : Book :=
  ⟨b.asin, b.title, b.author, b.coverUrl.getD [], b.lastUpdated.getD now⟩

/-- IndexedDB `put` on the `books` store (keyPath `asin`). -/
def putBook (books : List Book) (b : Book) : List Book :=
  if books.any (fun x => x.asin = b.asin) then
    books.map (fun x => if x.asin = b.asin then b else x)
  else books ++ [b]

/-- The two persistent collections touched by import. -/
structure DB where
  books : List Book
  highlights : List Highlight
deriving DecidableEq

/-- The `data` payload of a snapshot, with its `version` header.
`exportAllData` writes `version: '1.0'`. -/
structure Snapshot where
  version : Str
  books : List BookInput
  highlights : List HLInput
deriving DecidableEq

def exportVersion : Str := "1.0".toList

structure ImportCounts where
  imported : Nat
  skipped : Nat
  errCount : Nat
deriving DecidableEq

structure ImportResults where
  books : ImportCounts
  highlights : ImportCounts
deriving DecidableEq

/-- The `options` object of `importData` (`overwrite = false`,
`skipDuplicates = true` by default). -/
structure ImportOptions where
  overwrite : Bool
  skipDuplicates : Bool
deriving DecidableEq

/-- Model of `Database.importData`: imports books then highlights sequentially; an
existing record is skipped only when `!overwrite && skipDuplicates`; the
snapshot's `version` field is never consulted.  `uuid k` supplies the
`generateUUID()` result of the k-th `addHighlight` call for inputs without an
id. -/
def importData (now : Int) (uuid : Nat → Str) (db : DB) (snap : Snapshot)
    (opts : ImportOptions) : DB × ImportResults :=
  let bookStep := fun (acc : List Book × ImportCounts) (b : BookInput) =>
    if acc.1.any (fun x => x.asin = b.asin) ∧ !opts.overwrite ∧ opts.skipDuplicates then
      (acc.1, { acc.2 with skipped := acc.2.skipped + 1 })
    else (putBook acc.1 (mkBookData now b), { acc.2 with imported := acc.2.imported + 1 })
  let bRes := snap.books.foldl bookStep (db.books, ⟨0, 0, 0⟩)
  let hlStep := fun (acc : List Highlight × ImportCounts × Nat) (h : HLInput) =>
    let exists_ := match h.id with
      | some i => acc.1.any (fun x => x.id = i)
      | none => false
    if exists_ && !opts.overwrite && opts.skipDuplicates then
      (acc.1, { acc.2.1 with skipped := acc.2.1.skipped + 1 }, acc.2.2)
    else
      (addHighlight now (uuid acc.2.2) acc.1 h,
        { acc.2.1 with imported := acc.2.1.imported + 1 }, acc.2.2 + 1)
  let hRes := snap.highlights.foldl hlStep (db.highlights, ⟨0, 0, 0⟩, 0)
  (⟨bRes.1, hRes.1⟩, ⟨bRes.2, hRes.2.1⟩)

-- Shared lemmas.

theorem insertKeep_length (keep : α → α → Bool) (a : α) :
    ∀ l : List α, (insertKeep keep a l).length = l.length + 1 := by
  intro l
  induction l with
  | nil => rfl
  | cons b bs ih =>
    simp only [insertKeep]
    split
    · simp [ih]
    · simp

theorem stableSortBy_length (keep : α → α → Bool) (l : List α) :
    (stableSortBy keep l).length = l.length := by
  suffices h : ∀ l acc : List α,
      (l.foldl (fun acc x => insertKeep keep x acc) acc).length = acc.length + l.length by
    simpa using h l []
  intro l
  induction l with
  | nil => simp
  | cons x xs ih =>
    intro acc
    simp only [List.foldl_cons]
    rw [ih, insertKeep_length]
    simp only [List.length_cons]
    omega

theorem sampleLoop_length (rand : Nat → Nat) (count : Nat) :
    ∀ (fuel i k : Nat) (copy : List (Highlight × ℚ)), copy.length ≤ fuel →
      (sampleLoop rand count fuel i k copy).length =
        min (count - i) ((copy.length - i + 1) / 2) := by
  intro fuel
  induction fuel with
  | zero =>
    intro i k copy hle
    have : copy.length = 0 := by omega
    simp only [sampleLoop, List.length_nil]
    omega
  | succ f ih =>
    intro i k copy hle
    simp only [sampleLoop]
    split
    · next hcond =>
      have hlen : 0 < copy.length := by omega
      have hidx : rand k % copy.length < copy.length := Nat.mod_lt _ hlen
      have herase : (copy.eraseIdx (rand k % copy.length)).length = copy.length - 1 := by
        rw [List.length_eraseIdx]
        simp [hidx]
      rw [List.length_cons, ih (i + 1) (k + 1) _ (by omega)]
      rw [herase]
      omega
    · next hcond =>
      simp only [List.length_nil]
      omega

theorem selectBySpacedRepetition_length (now : Int) (jit : Nat → ℚ) (rand : Nat → Nat)
    (highlights : List Highlight) (count : Nat) :
    (selectBySpacedRepetition now jit rand highlights count).length =
      min count ((min (count * 2) highlights.length + 1) / 2) := by
  unfold selectBySpacedRepetition
  have hs : (stableSortBy (fun b a => decide (a.2 ≤ b.2))
      (highlights.enum.map
        (fun p => (p.2, calculateSpacedRepetitionScore now (jit p.1) p.2)))).length =
      highlights.length := by
    rw [stableSortBy_length, List.length_map, List.enum_length]
  rw [sampleLoop_length]
  · rw [List.length_take, hs]
    omega
  · rw [List.length_take, hs]
    omega

theorem strLtB_irrefl : ∀ s : Str, strLtB s s = false := by
  intro s
  induction s with
  | nil => rfl
  | cons c cs ih => simp [strLtB, ih]

theorem strCompare_self (s : Str) : strCompare s s = 0 := by
  simp [strCompare, strLtB_irrefl]

theorem intervals_getD_pos (i : Nat) : 0 < spacedRepetitionIntervals.getD i 1 := by
  match i with
  | 0 => norm_num [spacedRepetitionIntervals]
  | 1 => norm_num [spacedRepetitionIntervals]
  | 2 => norm_num [spacedRepetitionIntervals]
  | 3 => norm_num [spacedRepetitionIntervals]
  | 4 => norm_num [spacedRepetitionIntervals]
  | 5 => norm_num [spacedRepetitionIntervals]
  | 6 => norm_num [spacedRepetitionIntervals]
  | 7 => norm_num [spacedRepetitionIntervals]
  | n + 8 =>
    rw [List.getD_eq_default]
    · norm_num
    · simp [spacedRepetitionIntervals]

-- Concrete fixtures (parser-shaped records used at concrete inputs).

/-- A parser-produced ingestion record (`createHighlightObject` shape: id is
derived from text and ASIN, `dateAdded` is the parse-time `Date.now()`, no
show-history fields). -/
def parsedInput (text asin : Str) (tParse : Int) : HLInput :=
  ⟨some (generateHighlightId text asin), asin, text, some ("Page 4".toList),
    some ("4".toList), some 50, some tParse, some ("yellow".toList),
    some (some ("a note".toList)), some [], none, none, none⟩

def fixText : Str := "Hello, World".toList

def fixAsin : Str := "B001".toList

/-- A plain stored highlight used to build the selector fixtures. -/
def baseHl : Highlight :=
  ⟨"h0".toList, fixAsin, fixText, "Page 4".toList, "4".toList, 50, 100,
    "yellow".toList, some ("a note".toList), [], none, 0, none⟩

-- C1.

/-- C1 (counterexample): ingesting the same excerpt (same text and ASIN,
hence the same derived id) at time 100 and again at time 200 leaves one
stored record whose `dateAdded` is 200 — the first-seen value 100 is
overwritten, contradicting the claim that `dateIngested` keeps the
first-seen value. -/
theorem c1_dateAdded_overwritten :
    (addHighlight 200 [] (addHighlight 100 [] [] (parsedInput fixText fixAsin 100))
        (parsedInput fixText fixAsin 200)).map Highlight.dateAdded = [200] ∧
      (200 : Int) ≠ 100 := by
  constructor
  · decide
  · decide

/-- C1 (amended): re-ingesting a record with the same id leaves exactly one
stored Highlight, but its observable fields are those produced by the second
ingestion — in particular `dateAdded` is the second ingestion's value (the
input's `dateAdded` when present, else the second call's `Date.now()`), not
the first-seen one. -/
theorem c1_reingest_keeps_second (inp1 inp2 : HLInput) (t1 t2 : Int) (u1 u2 i : Str)
    (h1 : inp1.id = some i) (h2 : inp2.id = some i) :
    addHighlight t2 u2 (addHighlight t1 u1 [] inp1) inp2 = [mkHighlightData t2 u2 inp2] ∧
      (mkHighlightData t2 u2 inp2).dateAdded = inp2.dateAdded.getD t2 := by
  constructor
  · have hid1 : (mkHighlightData t1 u1 inp1).id = i := by simp [mkHighlightData, h1]
    have hid2 : (mkHighlightData t2 u2 inp2).id = i := by simp [mkHighlightData, h2]
    simp [addHighlight, putHighlight, hid1, hid2]
  · rfl

/-- C1 (witness). -/
theorem c1_reingest_keeps_second_witness :
    addHighlight 200 [] (addHighlight 100 [] [] (parsedInput fixText fixAsin 100))
        (parsedInput fixText fixAsin 200) =
      [mkHighlightData 200 [] (parsedInput fixText fixAsin 200)] ∧
      (mkHighlightData 200 [] (parsedInput fixText fixAsin 200)).dateAdded =
        (parsedInput fixText fixAsin 200).dateAdded.getD 200 :=
  c1_reingest_keeps_second (parsedInput fixText fixAsin 100)
    (parsedInput fixText fixAsin 200) 100 200 [] []
    (generateHighlightId fixText fixAsin) rfl rfl

-- C2.

/-- The spec invariant on show history: `timesShown == 0` iff the record was
never shown (no selector `lastShown`, no `lastSentInEmail` timestamp). -/
def showInvariantFull (h : Highlight) : Prop :=
  h.timesShown = 0 ↔ (h.lastShown = none ∧ h.lastSentInEmail = none)

/-- The invariant restricted to the selector's own `lastShown` field. -/
def showInvariant (h : Highlight) : Prop :=
  h.timesShown = 0 ↔ h.lastShown = none

instance (h : Highlight) : Decidable (showInvariantFull h) := by
  unfold showInvariantFull
  infer_instance

instance (h : Highlight) : Decidable (showInvariant h) := by
  unfold showInvariant
  infer_instance

def c2Fresh : Highlight := mkHighlightData 100 [] (parsedInput fixText fixAsin 100)

def c2AfterSent : Highlight := { c2Fresh with lastSentInEmail := some 200 }

/-- C2 (counterexample): `markHighlightAsSent` stamps `lastSentInEmail`
without touching `timesShown`, so a freshly ingested record (which satisfies
the invariant) is driven to `timesShown = 0` with a last-shown timestamp set
— the claimed invariant does not survive this store operation. -/
theorem c2_markSent_breaks_invariant :
    markHighlightAsSent 200 [c2Fresh] c2Fresh.id = some [c2AfterSent] ∧
      showInvariantFull c2Fresh ∧ ¬ showInvariantFull c2AfterSent := by
  refine ⟨by decide, by decide, ?_⟩
  intro hinv
  have h0 : c2AfterSent.timesShown = 0 := by decide
  have := hinv.mp h0
  exact absurd this.2 (by decide)

/-- C2 (amended): the biconditional fails for `lastSentInEmail` (see the
counterexample), but restricted to the selector's `lastShown` field it is
maintained: `markHighlightsAsShown` sets `lastShown` and increments
`timesShown` together and so preserves it, `markHighlightAsSent` touches
neither field, and `addHighlight` establishes it for any input carrying no
show-history fields. -/
theorem c2_lastShown_invariant_preserved :
    (∀ (now : Int) (store : List Highlight) (ids : List Str),
        (∀ h ∈ store, showInvariant h) →
          ∀ h ∈ markHighlightsAsShown now store ids, showInvariant h) ∧
      (∀ (now : Int) (store : List Highlight) (id : Str) (store' : List Highlight),
          markHighlightAsSent now store id = some store' →
            (∀ h ∈ store, showInvariant h) → ∀ h ∈ store', showInvariant h) ∧
      (∀ (now : Int) (uuid : Str) (inp : HLInput), inp.timesShown = none →
          inp.lastShown = none → showInvariant (mkHighlightData now uuid inp)) := by
  refine ⟨?_, ?_, ?_⟩
  · intro now store ids
    induction ids generalizing store with
    | nil => intro hinv h hm; exact hinv h hm
    | cons id rest ih =>
      intro hinv h hm
      refine ih _ ?_ h hm
      intro h' hm'
      cases hfind : store.find? (fun x => x.id = id) with
      | none =>
        simp only [markHighlightsAsShown, List.foldl_cons, hfind] at hm' ⊢
        exact hinv h' hm'
      | some w =>
        simp only [markHighlightsAsShown, List.foldl_cons, hfind] at hm' ⊢
        rcases List.mem_map.mp hm' with ⟨x, hx, hxeq⟩
        by_cases hid : x.id = id
        · rw [← hxeq]
          simp only [hid, if_pos rfl, showInvariant]
          constructor
          · intro hts; exact absurd hts (by simp)
          · intro hls; exact absurd hls (by simp)
        · rw [← hxeq]
          simp only [if_neg hid]
          exact hinv x hx
  · intro now store id store' hup hinv h hm
    simp only [markHighlightAsSent, updateHighlight] at hup
    split at hup
    · cases hup
      rcases List.mem_map.mp hm with ⟨x, hx, hxeq⟩
      by_cases hid : x.id = id
      · rw [← hxeq]
        simp only [hid, if_pos rfl, showInvariant]
        have := hinv x hx
        simpa [showInvariant] using this
      · rw [← hxeq]
        simp only [if_neg hid]
        exact hinv x hx
    · cases hup
  · intro now uuid inp hts hls
    simp [showInvariant, mkHighlightData, hts, hls]

def c2Shown : Highlight := { c2Fresh with lastShown := some 300, timesShown := 1 }

/-- C2 (witness): the preservation theorem applied to a concrete store, a
concrete `markHighlightAsSent` run and a concrete ingestion record. -/
theorem c2_lastShown_invariant_preserved_witness :
    showInvariant c2Shown ∧ showInvariant c2Fresh := by
  constructor
  · exact c2_lastShown_invariant_preserved.1 300 [c2Fresh] [c2Fresh.id]
      (by intro h hm; simp only [List.mem_singleton] at hm; rw [hm]; decide)
      c2Shown (by decide)
  · exact c2_lastShown_invariant_preserved.2.2 100 [] (parsedInput fixText fixAsin 100)
      rfl rfl

-- C3.

def c3h : Highlight := { baseHl with id := "h3".toList, bookAsin := "B9".toList }

def c3books : List (Str × List Highlight) := [("B9".toList, [c3h])]

theorem c3_books_eval :
    stableSortBy (fun b a => decide (a.2.length ≤ b.2.length)) (groupByBook [c3h]) =
      c3books := by decide

theorem c3_loop_stuck :
    ∀ (fuel k : Nat) (rand : Nat → Nat), mhLoop rand c3books 2 fuel [c3h] 0 k = none := by
  intro fuel
  induction fuel with
  | zero => intro k rand; rfl
  | succ f ih =>
    intro k rand
    have hmod : rand k % 1 = 0 := Nat.mod_one _
    simp only [mhLoop, c3books]
    rw [if_pos (by norm_num)]
    simp only [List.getD, List.get?, Option.getD, List.filter, neverShown]
    norm_num [c3h, baseHl, hmod, List.find?]
    exact ih (k + 1) rand

/-- C3: the claim says balanced-by-source selection over a non-empty
population with fewer than `count` matching highlights terminates and returns
all of them; on the code, with one never-shown highlight and `count = 2`, the
`while` loop of `selectFromMostHighlightedBooks` keeps resetting `bookIndex`
to 0 after every pass once every highlight is already selected, so the
selection never completes — for every fuel bound and every random stream the
loop is still running (`none`). -/
theorem c3_most_highlighted_never_returns :
    ∀ (fuel : Nat) (rand : Nat → Nat),
      selectFromMostHighlightedBooks rand [c3h] 2 fuel = none := by
  intro fuel rand
  unfold selectFromMostHighlightedBooks
  rw [c3_books_eval]
  cases fuel with
  | zero => rfl
  | succ f =>
    have hmod : rand 0 % 1 = 0 := Nat.mod_one _
    have h1 : mhLoop rand c3books 2 (f + 1) [] 0 0 = mhLoop rand c3books 2 f [c3h] 0 1 := by
      simp only [mhLoop, c3books]
      rw [if_pos (by norm_num)]
      simp only [List.getD, List.get?, Option.getD, List.filter, neverShown]
      norm_num [c3h, baseHl, hmod, List.find?]
    rw [h1]
    exact c3_loop_stuck f 1 rand

-- C5.

/-- The `daysSinceLastShown` quantity of the scorer. -/
def daysSince (now : Int) (h : Highlight) : ℚ :=
  if lastShownNum h > 0 then ((now : ℚ) - (lastShownNum h : ℚ)) / (24 * 60 * 60 * 1000) else 999

/-- The `targetInterval` ladder lookup of the scorer. -/
def targetIntervalOf (h : Highlight) : ℚ :=
  spacedRepetitionIntervals.getD (min h.timesShown (spacedRepetitionIntervals.length - 1)) 1

/-- The combined note/tags/frequency multiplier of the scorer. -/
def scoreMultiplier (h : Highlight) : ℚ :=
  (if noteNonBlank h.note then (3 : ℚ) / 2 else 1) * (if h.tags ≠ [] then (6 : ℚ) / 5 else 1) *
    (if h.timesShown > 5 then (4 : ℚ) / 5 else 1)

theorem base_factored (now : Int) (h : Highlight) :
    calculateSpacedRepetitionBase now h =
      daysSince now h / targetIntervalOf h * scoreMultiplier h := by
  simp only [calculateSpacedRepetitionBase, daysSince, targetIntervalOf, scoreMultiplier,
    lastShownNum]
  split_ifs <;> ring

/-- C5: for two highlights identical except for `lastShownAt`, both
previously shown and with equal `timesShown`, the one shown longer ago has a
base overdue score (days since last shown over the ladder interval, with the
note/tags/frequency multipliers, before the random jitter) at least as large
as the other's. -/
theorem c5_overdue_base_monotone (h : Highlight) (now tA tB : Int)
    (hA : 0 < tA) (hB : 0 < tB) (hAB : tA < tB) :
    calculateSpacedRepetitionBase now { h with lastShown := some tB } ≤
      calculateSpacedRepetitionBase now { h with lastShown := some tA } := by
  rw [base_factored, base_factored]
  have hdB : daysSince now { h with lastShown := some tB } =
      ((now : ℚ) - (tB : ℚ)) / (24 * 60 * 60 * 1000) := by
    show (if (tB : Int) > 0 then ((now : ℚ) - (tB : ℚ)) / (24 * 60 * 60 * 1000) else 999) = _
    exact if_pos hB
  have hdA : daysSince now { h with lastShown := some tA } =
      ((now : ℚ) - (tA : ℚ)) / (24 * 60 * 60 * 1000) := by
    show (if (tA : Int) > 0 then ((now : ℚ) - (tA : ℚ)) / (24 * 60 * 60 * 1000) else 999) = _
    exact if_pos hA
  have hT : targetIntervalOf { h with lastShown := some tA } =
      targetIntervalOf { h with lastShown := some tB } := rfl
  have hM : scoreMultiplier { h with lastShown := some tA } =
      scoreMultiplier { h with lastShown := some tB } := rfl
  rw [hdA, hdB, hT, hM]
  have hTpos : (0 : ℚ) < targetIntervalOf { h with lastShown := some tB } :=
    intervals_getD_pos _
  have hMpos : (0 : ℚ) ≤ scoreMultiplier { h with lastShown := some tB } := by
    unfold scoreMultiplier
    split_ifs <;> norm_num
  have hsub : ((now : ℚ) - (tB : ℚ)) ≤ ((now : ℚ) - (tA : ℚ)) := by
    have : (tA : ℚ) < (tB : ℚ) := by exact_mod_cast hAB
    linarith
  gcongr

/-- C5 (witness). -/
theorem c5_overdue_base_monotone_witness :
    (0 : Int) < 100 ∧ (0 : Int) < 200 ∧ (100 : Int) < 200 ∧
      calculateSpacedRepetitionBase 1000 { baseHl with lastShown := some 200 } ≤
        calculateSpacedRepetitionBase 1000 { baseHl with lastShown := some 100 } :=
  ⟨by norm_num, by norm_num, by norm_num,
    c5_overdue_base_monotone baseHl 1000 100 200 (by norm_num) (by norm_num) (by norm_num)⟩

-- C4.

def c4a : Highlight := { baseHl with id := "a1".toList }

def c4b : Highlight := { baseHl with id := "b1".toList }

def c4settings : UserSettings := ⟨[], [], 0, [], none⟩

/-- C4: the claim says `select` returns fewer than `count` only when fewer
than `count` highlights satisfy the constraints.  On the code, with two
highlights satisfying every constraint and `count = 2` in the default
spaced-repetition mode, `selectHighlights` reports success with
`filteredCount = 2` yet returns only one highlight: the sampling loop's
re-evaluated bound `i < Math.min(count, candidatesCopy.length)` shrinks with
every `splice`. -/
theorem c4_select_returns_fewer_than_available :
    (selectHighlights 1000 (fun _ => 0) (fun _ => 0) (fun _ => 0) 9 [c4a, c4b] 2
        c4settings).map
      (fun o => (o.status, o.highlights.length, o.filteredCount)) =
      some ("success".toList, 1, some 2) := by
  have hlen : ((selectBySpacedRepetition 1000 (fun _ => 0) (fun _ => 0) [c4a, c4b] 2).map
      Prod.fst).length = 1 := by
    rw [List.length_map, selectBySpacedRepetition_length]
    decide
  have hfil : filterHighlights 1000 [c4a, c4b] c4settings = [c4a, c4b] := rfl
  unfold selectHighlights
  rw [if_neg (by decide)]
  simp only [hfil]
  rw [if_neg (by decide)]
  have hmode : c4settings.highlightSelectionMode.getD ("spaced-repetition".toList) =
      ("spaced-repetition".toList) := rfl
  rw [hmode]
  unfold selectByAlgorithm
  rw [if_pos rfl]
  simp [hlen]

-- C6.

def c6a : Highlight := { baseHl with id := "a2".toList }

def c6b : Highlight := { baseHl with id := "b2".toList }

/-- C6: the claim says spaced-repetition selection returns `min(count, n)`
highlights.  On the code, with `n = 2` candidates and `count = 2`, the
returned list has length 1, not `min(2, 2) = 2`: the loop bound
`Math.min(count, candidatesCopy.length)` is re-read while `splice` shrinks
the array, so only `⌈min(2·count, n)/2⌉` draws happen. -/
theorem c6_sample_returns_half :
    (selectBySpacedRepetition 1000 (fun _ => 0) (fun _ => 0) [c6a, c6b] 2).length = 1 ∧
      min 2 ([c6a, c6b].length) = 2 := by
  constructor
  · rw [selectBySpacedRepetition_length]
    decide
  · rfl

-- C7.

def c7h1 : Highlight := { baseHl with id := "h1".toList }

def c7h2 : Highlight := { baseHl with id := "h2".toList }

def c7hMissing : Highlight := { baseHl with id := "missing".toList }

def c7ids : List Str := ["h1".toList, "h2".toList, "missing".toList]

/-- C7 (counterexample): `bulkDelete(["h1","h2","missing"])` on a store
holding only `h1` and `h2` deletes both, but the resolved value is the bare
count 3 — identical to the result on a store where `missing` exists — so no
per-id `NotFoundError` is reported for the missing id, contradicting the
claimed per-id result. -/
theorem c7_no_per_id_report :
    bulkDeleteHighlights [c7h1, c7h2] c7ids = ([], 3) ∧
      bulkDeleteHighlights [c7h1, c7h2, c7hMissing] c7ids = ([], 3) := by decide

/-- C7 (amended): `bulkDelete` deletes every listed id that exists and never
rejects the call because a listed id is missing, but it reports nothing per
id: a missing id is silently counted as completed (IndexedDB `delete`
succeeds on an absent key) and the call resolves with the number of processed
ids, with no `NotFoundError` list. -/
theorem c7_bulk_delete_behavior (store : List Highlight) (ids : List Str) :
    bulkDeleteHighlights store ids =
      (store.filter (fun h => decide (¬ h.id ∈ ids)), ids.length) := by
  suffices haux : ∀ (ids : List Str) (st : List Highlight) (c : Nat),
      ids.foldl (fun acc id => (acc.1.filter (fun h => !(h.id = id : Bool)), acc.2 + 1))
          (st, c) =
        (st.filter (fun h => decide (¬ h.id ∈ ids)), c + ids.length) by
    have h := haux ids store 0
    simp only [bulkDeleteHighlights]
    rw [h]
    simp
  intro ids
  induction ids with
  | nil =>
    intro st c
    simp
  | cons id rest ih =>
    intro st c
    simp only [List.foldl_cons]
    rw [ih]
    have hf : (st.filter (fun h => !(h.id = id : Bool))).filter
          (fun h => decide (¬ h.id ∈ rest)) =
        st.filter (fun h => decide (¬ h.id ∈ id :: rest)) := by
      rw [List.filter_filter]
      apply List.filter_congr
      intro x _
      by_cases h1 : x.id = id <;> by_cases h2 : x.id ∈ rest <;>
        simp [h1, h2, List.mem_cons]
    rw [hf]
    simp only [List.length_cons, Prod.mk.injEq]
    refine ⟨by simp, by omega⟩

-- C8.

def c8input : HLInput := parsedInput fixText fixAsin 100

/-- C8 (counterexample): a snapshot whose `version` ("2.0") differs from the
exporter's supported version ("1.0") is not rejected: `importData` applies
its writes (one highlight imported into the store) exactly as for a matching
snapshot. -/
theorem c8_unknown_version_imported :
    ("2.0".toList : Str) ≠ exportVersion ∧
      (importData 100 (fun _ => []) ⟨[], []⟩ ⟨"2.0".toList, [], [c8input]⟩
          ⟨false, true⟩).1.highlights.length = 1 ∧
      (importData 100 (fun _ => []) ⟨[], []⟩ ⟨"2.0".toList, [], [c8input]⟩
          ⟨false, true⟩).2.highlights.imported = 1 := by decide

/-- C8 (amended): `importData` never inspects the snapshot's `version` field:
two snapshots differing only in `version` import identically (same resulting
store and same result counters), so no version is rejected. -/
theorem c8_version_ignored (now : Int) (uuid : Nat → Str) (db : DB)
    (books : List BookInput) (hls : List HLInput) (opts : ImportOptions) (v1 v2 : Str) :
    importData now uuid db ⟨v1, books, hls⟩ opts =
      importData now uuid db ⟨v2, books, hls⟩ opts := rfl

-- C9.

def c9x : Highlight := { baseHl with location := "42".toList }

def c9y : Highlight := { baseHl with location := "7".toList }

def c9p : Highlight := { baseHl with location := "Page 5".toList, dateHighlighted := 1 }

def c9q : Highlight := { baseHl with location := "Page 5".toList, dateHighlighted := 2 }

def c9pgA : Highlight := { baseHl with location := "Page 42".toList }

def c9pgB : Highlight := { baseHl with location := "p. 7".toList }

/-- C9 (counterexample): the position comparator does not use the leading
integer — on labels "42" and "7" (both starting with an integer) it returns
the lexicographic −1 where the claimed rule yields +35 — and it has no
`dateCreated` tiebreak: two highlights with the identical label "Page 5" and
different dates compare as 0 where the claimed rule yields a nonzero
date-descending result. -/
theorem c9_comparator_not_as_claimed :
    locationComparator c9x c9y = -1 ∧ specPositionCompare c9x c9y = 35 ∧
      locationComparator c9p c9q = 0 ∧ specPositionCompare c9p c9q = 1 := by decide

/-- C9 (amended): the comparator extracts the integer following a `page`/`p.`
marker (not a leading integer): when both labels yield one it compares those
numbers; when either lacks one it falls back to lexicographic
(`localeCompare`) order; and equal labels compare as 0 with no `dateCreated`
tiebreak. -/
theorem c9_comparator_behavior :
    (∀ (a b : Highlight) (pa pb : Str), extractPageNumber a.location = some pa →
        extractPageNumber b.location = some pb →
        locationComparator a b = (digitsToNat pa : Int) - (digitsToNat pb : Int)) ∧
      (∀ a b : Highlight,
        extractPageNumber a.location = none ∨ extractPageNumber b.location = none →
          locationComparator a b = strCompare a.location b.location) ∧
      (∀ a b : Highlight, a.location = b.location → locationComparator a b = 0) := by
  refine ⟨?_, ?_, ?_⟩
  · intro a b pa pb hpa hpb
    simp [locationComparator, compareLocations, hpa, hpb]
  · intro a b hnone
    rcases hnone with hn | hn
    · simp [locationComparator, compareLocations, hn]
    · cases hx : extractPageNumber a.location <;>
        simp [locationComparator, compareLocations, hn, hx]
  · intro a b heq
    simp only [locationComparator, compareLocations, heq]
    cases hx : extractPageNumber b.location with
    | none => simp [strCompare_self]
    | some p => simp

/-- C9 (witness): each clause of the comparator theorem applied at a concrete
pair of highlights. -/
theorem c9_comparator_behavior_witness :
    locationComparator c9pgA c9pgB =
        (digitsToNat ("42".toList) : Int) - (digitsToNat ("7".toList) : Int) ∧
      locationComparator c9x c9y = strCompare c9x.location c9y.location ∧
      locationComparator c9p c9p = 0 :=
  ⟨c9_comparator_behavior.1 c9pgA c9pgB ("42".toList) ("7".toList) (by decide) (by decide),
    c9_comparator_behavior.2.1 c9x c9y (Or.inl (by decide)),
    c9_comparator_behavior.2.2 c9p c9p rfl⟩

-- C10.

instance {ε α : Type} [DecidableEq ε] [DecidableEq α] : DecidableEq (Except ε α) := fun x y =>
  match x, y with
  | .error a, .error b =>
    if h : a = b then isTrue (by rw [h]) else isFalse (fun hc => by cases hc; exact h rfl)
  | .ok a, .ok b =>
    if h : a = b then isTrue (by rw [h]) else isFalse (fun hc => by cases hc; exact h rfl)
  | .error _, .ok _ => isFalse (fun hc => by cases hc)
  | .ok _, .error _ => isFalse (fun hc => by cases hc)

def c10mal : Highlight := { baseHl with id := "m".toList, text := "Hello World".toList }

def c10malPatched : Highlight := { c10mal with note := none }

def c10patch : HLPatch := ⟨some none, none, none⟩

def c10store : List Highlight :=
  (bulkUpdateHighlights [c10mal] ["m".toList] c10patch).1

def noFilters : SearchFilters := ⟨none, none, none, none, none⟩

/-- C10 (counterexample): after a bulk update whose patch sets `note` to
`undefined`, the store's only record has a malformed note; yet the non-empty
query "hello" is found in that record's text, the `||` chain short-circuits
before reading `note`, and the search succeeds — so it is not the case that
every non-empty text search fails. -/
theorem c10_matching_query_succeeds :
    c10store.map Highlight.note = [none] ∧ ("hello".toList : Str) ≠ [] ∧
      searchHighlights c10store ("hello".toList) noFilters = .ok [c10malPatched] := by decide

theorem matchesText_error_iff (term : Str) (h : Highlight) :
    matchesText term h = .error () ↔
      hasSubstr (strLower h.text) term = false ∧ h.note = none := by
  unfold matchesText
  by_cases h1 : hasSubstr (strLower h.text) term = true
  · simp [h1]
  · cases hn : h.note with
    | none => simp [h1, hn, Bool.not_eq_true] at *
    | some nt =>
      by_cases h2 : hasSubstr (strLower nt) term = true <;> simp [h1, hn, h2]

theorem filterTextE_error_iff (term : Str) :
    ∀ l : List Highlight,
      filterTextE term l = .error () ↔
        ∃ h ∈ l, hasSubstr (strLower h.text) term = false ∧ h.note = none := by
  intro l
  induction l with
  | nil => simp [filterTextE]
  | cons h hs ih =>
    simp only [filterTextE]
    cases hm : matchesText term h with
    | error e =>
      cases e
      have hprop := (matchesText_error_iff term h).mp hm
      simp only [List.mem_cons]
      constructor
      · intro _
        exact ⟨h, Or.inl rfl, hprop⟩
      · intro _
        trivial
    | ok b =>
      cases hr : filterTextE term hs with
      | error e =>
        cases e
        have hex := ih.mp hr
        simp only [List.mem_cons]
        constructor
        · intro _
          rcases hex with ⟨w, hw, hp⟩
          exact ⟨w, Or.inr hw, hp⟩
        · intro _
          trivial
      | ok rest =>
        constructor
        · intro hcontr
          by_cases hb : b = true <;> simp [hb] at hcontr
        · rintro ⟨w, hw, hp⟩
          rcases List.mem_cons.mp hw with hweq | hwmem
          · subst hweq
            rw [(matchesText_error_iff term w).mpr hp] at hm
            cases hm
          · rw [ih.mpr ⟨w, hwmem, hp⟩] at hr
            cases hr

/-- C10 (amended): a store record whose `note` is not a string makes
`searchHighlights` reject exactly for those non-empty queries that are not
substrings of some such record's lowercased text — the `||` chain reads
`note` only after the text test fails, so a query found in the malformed
record's text (or an empty query, which skips the text search) leaves the
call successful. -/
theorem c10_search_rejects_iff (store : List Highlight) (query : Str)
    (filters : SearchFilters) :
    searchHighlights store query filters = .error () ↔
      (query ≠ [] ∧ ∃ h ∈ store,
        hasSubstr (strLower h.text) (strLower query) = false ∧ h.note = none) := by
  unfold searchHighlights
  by_cases hq : query = []
  · simp [hq]
  · simp only [ne_eq, hq, not_false_eq_true, if_pos]
    cases hf : filterTextE (strLower query) store with
    | error e =>
      cases e
      have hex := (filterTextE_error_iff (strLower query) store).mp hf
      simp [hex, hq]
    | ok l =>
      constructor
      · intro hcontr
        cases hcontr
      · rintro ⟨-, hex⟩
        rw [(filterTextE_error_iff (strLower query) store).mpr hex] at hf
        cases hf

/-- C10 (witness): the rejection characterization applied at a concrete store
and query — the malformed record's text does not contain "zebra", so that
search rejects as a whole. -/
theorem c10_search_rejects_iff_witness :
    searchHighlights c10store ("zebra".toList) noFilters = .error () :=
  (c10_search_rejects_iff c10store ("zebra".toList) noFilters).mpr
    ⟨by decide, c10malPatched, by decide, by decide, by decide⟩
